import Mathlib

/-!
Shallow embedding of `src/market_dashboard.py` (the market-returns dashboard).

Modelling conventions:
* A pandas `DataFrame` holding a price series is modelled by `Frame`:
  - `hasClose` — whether the `'Close'` column is present;
  - `tzAware` — whether `data.index.tz` is already set (tz-aware index);
  - `localizeOk` — whether `data.index.tz_localize('America/New_York')`
    would succeed (it raises on nonexistent/ambiguous local times);
  - `rows` — the (timestamp, close) rows; a timestamp is an `Int`
    (comparable instant) and a close price is `Option ℚ`, `none`
    standing for a float NaN.
* Arbitrary Python values passed to the calculators are `PyValue`:
  either a `Frame` or `other` (anything failing `isinstance(data, pd.DataFrame)`).
* The `start_date` argument of `calculate_returns` is `RefDate`:
  `valid t` when `pd.Timestamp(start_date).tz_localize('America/New_York')`
  succeeds and yields instant `t`, `invalid` when it raises.
* Exceptions are modelled with `Except Unit`; every `try/except` of the
  Python code becomes a `match` on the `Except` value.
-/

/-- One row of the price series: (timestamp, close price); `none` is NaN. -/
abbrev Row : Type := Int × Option ℚ

/-- Model of a pandas DataFrame holding a price series. -/
structure Frame where
  hasClose : Bool
  tzAware : Bool
  localizeOk : Bool
  rows : List Row
deriving DecidableEq

/-- An arbitrary Python value handed to the calculators. -/
inductive PyValue where
  | df (d : Frame)
  | other
deriving DecidableEq

/-- The `start_date` argument: `valid t` if localizing it succeeds giving
instant `t`, `invalid` if `pd.Timestamp(...).tz_localize(...)` raises. -/
inductive RefDate where
  | valid (t : Int)
  | invalid
deriving DecidableEq

/-- Ordering of rows by timestamp, as `data.sort_index()` orders them. -/
def rowLe (a b : Row) : Prop := a.1 ≤ b.1

instance : DecidableRel rowLe := fun a b => inferInstanceAs (Decidable (a.1 ≤ b.1))

instance : IsTotal Row rowLe := ⟨fun a b => Int.le_total a.1 b.1⟩

instance : IsTrans Row rowLe := ⟨fun _ _ _ hab hbc => le_trans hab hbc⟩

/-- Model of `data.sort_index()`: stable sort of the rows by timestamp
(pandas uses insertion sort below its quicksort cutoff, so a stable sort
is the faithful model at the sizes considered here). -/
def sortRows (l : List Row) : List Row := List.insertionSort rowLe l

/-- Model of `pd.Timestamp(start_date).tz_localize('America/New_York')`
at line 51: yields the localized instant or raises. -/
def localizeRef : RefDate → Except Unit Int
  | .valid t => .ok t
  | .invalid => .error ()

/-- Model of lines 58–59: `if data.index.tz is None: data.index =
data.index.tz_localize('America/New_York')`. Already-aware indices are
left alone; a naive index is localized in place when localization
succeeds, and the call raises when it does not. -/
def localizeIndex (d : Frame) : Except Unit Frame :=
  if d.tzAware then .ok d
  else if d.localizeOk then .ok { d with tzAware := true }
  else .error ()

/-- Model of lines 71–98 of `calculate_returns`, operating on the sorted
rows: build `mask = data.index >= start_date`, return 0.0 if no row is
masked, else take `start_price` from the first masked row and `end_price`
from `data.iloc[-1]`, guard NaN and a zero start price, and return
`(end_price / start_price - 1) * 100`. The `getLast? = none` branch
corresponds to the `IndexError` handler (unreachable once a masked row
exists). -/
def returnFromSorted (rows : List Row) (t : Int) : ℚ :=
  match rows.filter (fun r => decide (t ≤ r.1)) with
  | [] => 0
  | s :: _ =>
    match rows.getLast? with
    | none => 0
    | some e =>
      match s.2, e.2 with
      | some sp, some ep => if sp = 0 then 0 else (ep / sp - 1) * 100
      | _, _ => 0

/-- Body of `calculate_returns` (lines 33–98) inside the outermost
`try`, with every inner `try/except` performing its catch exactly where
the Python code does: an `Except.error` escaping this function would
mean an exception reaching the outermost handler at line 99. -/
def calculate_returnsE (v : PyValue) (rd : RefDate) : Except Unit ℚ :=
  match v with
  | .other => .ok 0
  | .df d =>
    if d.rows.isEmpty then .ok 0
    else if !d.hasClose then .ok 0
    else
      match localizeRef rd with
      | .error _ => .ok 0
      | .ok t =>
        match localizeIndex d with
        | .error _ => .ok 0
        | .ok d2 => .ok (returnFromSorted (sortRows d2.rows) t)

/-- `calculate_returns` (lines 33–101): the body wrapped in the
outermost `except Exception` handler, which converts any escaping
exception into the 0.0 sentinel. -/
def calculate_returns (v : PyValue) (rd : RefDate) : ℚ :=
  match calculate_returnsE v rd with
  | .ok q => q
  | .error _ => 0

/-- Caller-visible state of the `data` argument after `calculate_returns`
returns. The only in-place mutation in the Python body is the index
assignment `data.index = data.index.tz_localize(...)` at line 59 (the
later `data = data.sort_index()` rebinds a fresh frame); the assignment
is reached only after the type/empty/column checks pass and the
`start_date` conversion succeeds, and it happens only when the index was
naive and localization succeeds. -/
def calculate_returns_post (v : PyValue) (rd : RefDate) : PyValue :=
  match v with
  | .other => v
  | .df d =>
    if d.rows.isEmpty then v
    else if !d.hasClose then v
    else
      match localizeRef rd with
      | .error _ => v
      | .ok _ =>
        match localizeIndex d with
        | .error _ => v
        | .ok d2 => .df d2

/-- Model of lines 291–308 of `calculate_percentage_change`, operating on
the sorted rows: locate the first masked row, return the empty series if
none exists or its close is NaN or zero, else transform the WHOLE series
as `(data['Close'] / start_price - 1) * 100` (a NaN close maps to NaN). -/
def pctChangeFromSorted (rows : List Row) (t : Int) : List Row :=
  match rows.filter (fun r => decide (t ≤ r.1)) with
  | [] => []
  | s :: _ =>
    match s.2 with
    | none => []
    | some sp =>
      if sp = 0 then []
      else rows.map (fun r => (r.1, r.2.map (fun c => (c / sp - 1) * 100)))

/-- `calculate_percentage_change` (lines 270–314): its `start_date`
parameter is already a localized timestamp (the caller localizes
`year_start` at line 262), so it is a plain `Int` here. Every failure
path returns the empty series `pd.Series()`, modelled as `[]`. -/
def calculate_percentage_change (v : PyValue) (t : Int) : List Row :=
  match v with
  | .other => []
  | .df d =>
    if d.rows.isEmpty then []
    else if !d.hasClose then []
    else
      match localizeIndex d with
      | .error _ => []
      | .ok d2 => pctChangeFromSorted (sortRows d2.rows) t

/-- Caller-visible state of the `data` argument after
`calculate_percentage_change` returns; the in-place index assignment at
line 286 is reached after the type/empty/column checks and mutates only
a naive index whose localization succeeds. -/
def calculate_percentage_change_post (v : PyValue) (_t : Int) : PyValue :=
  match v with
  | .other => v
  | .df d =>
    if d.rows.isEmpty then v
    else if !d.hasClose then v
    else
      match localizeIndex d with
      | .error _ => v
      | .ok d2 => .df d2

/-! ## Multi-symbol fallback fetch (`get_market_data`, lines 119–148)

A fetch attempt `yf.Ticker(tk).history(...)` either returns a frame or
raises; `fetch tk a` is the outcome of attempt `a` (0-based) for the
ticker with index `tk` in the candidate list. The instrument variable
(`russell_data` etc.) starts as `pd.DataFrame()` and is reassigned by
every non-raising fetch; a raising attempt leaves it unchanged. -/

/-- Outcome of one `yf.Ticker(...).history(...)` call. -/
inductive FetchOutcome where
  | ok (d : Frame)
  | exc
deriving DecidableEq

/-- The initial `pd.DataFrame()`: no rows, no `'Close'` column. -/
def emptyFrame : Frame := { hasClose := false, tzAware := false, localizeOk := true, rows := [] }

/-- The acceptance test `not data.empty and len(data) > 10`
(lines 132, 143). -/
def suffData (d : Frame) : Bool := !d.rows.isEmpty && decide (10 < d.rows.length)

/-- `max_retries = 2` (line 123). -/
def maxRetries : Nat := 2

/-- The inner `for attempt in range(max_retries)` loop (lines 128–142)
for one ticker: a non-raising fetch reassigns the instrument variable;
a sufficient result breaks out; a raising fetch leaves the variable as
it was. -/
def runAttemptsList (f : Nat → FetchOutcome) : List Nat → Frame → Frame
  | [], cur => cur
  | a :: rest, cur =>
    match f a with
    | .exc => runAttemptsList f rest cur
    | .ok d => if suffData d then d else runAttemptsList f rest d

/-- The outer `for ticker in tickers` loop (lines 126–144): run the
attempt loop for each ticker in order, breaking as soon as the
instrument variable holds a sufficient series. -/
def runTickersList (fetch : Nat → Nat → FetchOutcome) : List Nat → Frame → Frame
  | [], cur => cur
  | tk :: rest, cur =>
    let cur2 := runAttemptsList (fetch tk) (List.range maxRetries) cur
    if suffData cur2 then cur2 else runTickersList fetch rest cur2

/-- One instrument of `get_market_data`: the nested fallback loops
started from the empty frame. -/
def fetchInstrument (fetch : Nat → Nat → FetchOutcome) (tickers : List Nat) : Frame :=
  runTickersList fetch tickers emptyFrame

/-- Modelled from the spec: the (ticker, attempt) pairs in the order the
fallback loop executes them — each candidate symbol in order, with up to
`max_retries` attempts per symbol. -/
def execOrder (tickers : List Nat) : List (Nat × Nat) :=
  tickers.flatMap (fun tk => (List.range maxRetries).map (fun a => (tk, a)))

/-- Modelled from the spec: a single linear scan over (ticker, attempt)
pairs that accepts the first sufficient fetched series and otherwise
remembers the last non-raising fetch. -/
def scanPairs (fetch : Nat → Nat → FetchOutcome) : List (Nat × Nat) → Frame → Frame
  | [], cur => cur
  | p :: rest, cur =>
    match fetch p.1 p.2 with
    | .exc => scanPairs fetch rest cur
    | .ok d => if suffData d then d else scanPairs fetch rest d

/-- The frame left by the last non-raising fetch of `pairs`, starting
from `init` (used to characterize the all-attempts-fail case). -/
def lastFetched (fetch : Nat → Nat → FetchOutcome) (pairs : List (Nat × Nat)) (init : Frame) : Frame :=
  pairs.foldl (fun acc p => match fetch p.1 p.2 with | .ok d => d | .exc => acc) init

/-! ## Shared lemmas -/

/-- Sorting permutes the rows. -/
lemma sortRows_perm (l : List Row) : (sortRows l).Perm l :=
  List.perm_insertionSort rowLe l

/-- The sorted rows are sorted by timestamp. -/
lemma sortRows_sorted (l : List Row) : List.Sorted rowLe (sortRows l) :=
  List.sorted_insertionSort rowLe l

/-- Two permutations of the same rows sort identically when no timestamp
repeats. -/
lemma sortRows_eq_of_perm (l1 l2 : List Row) (hperm : l1.Perm l2)
    (hnd : (l1.map Prod.fst).Nodup) : sortRows l1 = sortRows l2 := by
  haveI : IsAntisymm Row (fun a b => a.1 < b.1) :=
    ⟨fun a b h1 h2 => absurd (lt_trans h1 h2) (lt_irrefl _)⟩
  have hp : (sortRows l1).Perm (sortRows l2) :=
    (sortRows_perm l1).trans (hperm.trans (sortRows_perm l2).symm)
  have hnd1 : ((sortRows l1).map Prod.fst).Nodup :=
    (((sortRows_perm l1).map Prod.fst).nodup_iff).mpr hnd
  have hnd2 : ((sortRows l2).map Prod.fst).Nodup :=
    ((hp.map Prod.fst).nodup_iff).mp hnd1
  have hstrict : ∀ (l : List Row), List.Sorted rowLe l → ((l.map Prod.fst).Nodup) →
      List.Pairwise (fun a b : Row => a.1 < b.1) l := by
    intro l hs hn
    have hne : List.Pairwise (fun a b : Row => a.1 ≠ b.1) l :=
      (List.pairwise_map).mp hn
    exact (hs.and hne).imp (fun h => lt_of_le_of_ne h.1 h.2)
  exact List.eq_of_perm_of_sorted hp
    (hstrict _ (sortRows_sorted l1) hnd1) (hstrict _ (sortRows_sorted l2) hnd2)

/-- A successful index localization keeps the rows and the other fields,
and exists exactly when the index is aware or localizable. -/
lemma localizeIndex_ok (d : Frame) (hloc : d.tzAware = true ∨ d.localizeOk = true) :
    ∃ d2, localizeIndex d = .ok d2 ∧ d2.rows = d.rows := by
  unfold localizeIndex
  rcases hloc with h | h
  · exact ⟨d, by simp [h]⟩
  · by_cases htz : d.tzAware = true
    · exact ⟨d, by simp [htz]⟩
    · refine ⟨{ d with tzAware := true }, ?_, rfl⟩
      simp [htz, h]

/-- If the head of a filtered list is `s`, then `s` sits at a position
`j` of the original list, satisfies the predicate, and every earlier
position fails it. -/
lemma filter_head_first {α : Type} (p : α → Bool) :
    ∀ (l : List α) (s : α), (l.filter p).head? = some s →
      ∃ j, ∃ hj : j < l.length, l.get ⟨j, hj⟩ = s ∧ p s = true ∧
        ∀ k (hk : k < l.length), k < j → p (l.get ⟨k, hk⟩) = false := by
  intro l
  induction l with
  | nil => intro s h; simp at h
  | cons a tl ih =>
    intro s h
    by_cases hpa : p a = true
    · have hs : s = a := by
        simp [List.filter_cons, hpa] at h
        exact h.symm
      subst hs
      exact ⟨0, by simp, rfl, hpa, fun k hk hk0 => absurd hk0 (Nat.not_lt_zero k)⟩
    · have hpa0 : p a = false := by
        cases hb : p a
        · rfl
        · exact absurd hb hpa
      have h2 : (tl.filter p).head? = some s := by
        simpa [List.filter_cons, hpa0] using h
      obtain ⟨j, hj, hget, hps, hfirst⟩ := ih s h2
      refine ⟨j + 1, by simpa using Nat.succ_lt_succ hj, by simpa using hget, hps, ?_⟩
      intro k hk hkj
      cases k with
      | zero => simpa using hpa0
      | succ k2 =>
        have hk2 : k2 < tl.length := by simpa using hk
        have := hfirst k2 hk2 (Nat.lt_of_succ_lt_succ hkj)
        simpa using this

/-- Unfolding of `calculate_returns` on a valid frame and reference date
down to the post-sorting computation. -/
lemma calculate_returns_valid (d : Frame) (t : Int) (d2 : Frame)
    (hne : d.rows ≠ []) (hclose : d.hasClose = true)
    (hd2 : localizeIndex d = .ok d2) :
    calculate_returns (.df d) (.valid t) = returnFromSorted (sortRows d2.rows) t := by
  have hempty : d.rows.isEmpty = false := by simp [List.isEmpty_iff, hne]
  simp [calculate_returns, calculate_returnsE, hempty, hclose, localizeRef, hd2]

/-- Unfolding of `calculate_percentage_change` on a valid frame down to
the post-sorting computation. -/
lemma calculate_percentage_change_df (d : Frame) (t : Int) (d2 : Frame)
    (hne : d.rows ≠ []) (hclose : d.hasClose = true)
    (hd2 : localizeIndex d = .ok d2) :
    calculate_percentage_change (.df d) t = pctChangeFromSorted (sortRows d2.rows) t := by
  have hempty : d.rows.isEmpty = false := by simp [List.isEmpty_iff, hne]
  simp [calculate_percentage_change, hempty, hclose, hd2]

/-- C1: for a DataFrame series with a Close column that is non-empty
and, after localization to US Eastern and sorting ascending, has a first
entry `s` at/after the localized reference date and last entry `e`, with
both closes present (non-NaN) and the start close nonzero,
`calculate_returns` returns exactly `(end_price / start_price - 1) * 100`. -/
theorem calculate_returns_formula (d : Frame) (rd : RefDate) (t : Int)
    (s e : Row) (sp ep : ℚ)
    (hrd : rd = .valid t)
    (hloc : d.tzAware = true ∨ d.localizeOk = true)
    (hne : d.rows ≠ [])
    (hclose : d.hasClose = true)
    (hmask : ((sortRows d.rows).filter (fun r => decide (t ≤ r.1))).head? = some s)
    (hlast : (sortRows d.rows).getLast? = some e)
    (hsp : s.2 = some sp) (hep : e.2 = some ep) (hsp0 : sp ≠ 0) :
    calculate_returns (.df d) rd = (ep / sp - 1) * 100 := by
  subst hrd
  obtain ⟨d2, hd2, hrows⟩ := localizeIndex_ok d hloc
  rw [calculate_returns_valid d t d2 hne hclose hd2, hrows]
  obtain ⟨ts, sc⟩ := s
  obtain ⟨te, ec⟩ := e
  simp only at hsp hep
  subst hsp
  subst hep
  unfold returnFromSorted
  cases hf : (sortRows d.rows).filter (fun r => decide (t ≤ r.1)) with
  | nil => rw [hf] at hmask; simp at hmask
  | cons s2 tl =>
    rw [hf] at hmask
    simp only [List.head?_cons, Option.some.injEq] at hmask
    subst hmask
    rw [hlast]
    simp [hsp0]

/-- Concrete instance of C1: spec §8 test 3 — points (0, 100), (150, 150),
(364, 200) with reference date 0 give `(200 / 100 - 1) * 100`. -/
theorem calculate_returns_formula_witness :
    calculate_returns
        (.df ⟨true, true, true, [(0, some 100), (150, some 150), (364, some 200)]⟩)
        (.valid 0)
      = ((200 : ℚ) / 100 - 1) * 100 :=
  calculate_returns_formula
    ⟨true, true, true, [(0, some 100), (150, some 150), (364, some 200)]⟩
    (.valid 0) 0 (0, some 100) (364, some 200) 100 200
    rfl (Or.inl rfl) (by decide) rfl (by decide) (by decide) rfl rfl (by decide)

/-- C2: the body of `calculate_returns` never lets an exception escape —
every failure path is converted to the 0.0 sentinel by an inner handler,
so the function always hands its caller a plain number. -/
theorem calculate_returns_total (v : PyValue) (rd : RefDate) :
    calculate_returnsE v rd = .ok (calculate_returns v rd) := by
  have hok : ∃ q, calculate_returnsE v rd = .ok q := by
    cases v with
    | other => exact ⟨0, rfl⟩
    | df d =>
      unfold calculate_returnsE
      by_cases he : d.rows.isEmpty
      · exact ⟨0, by simp [he]⟩
      · by_cases hc : d.hasClose
        · cases rd with
          | invalid => exact ⟨0, by simp [he, hc, localizeRef]⟩
          | valid t =>
            unfold localizeIndex
            by_cases htz : d.tzAware
            · exact ⟨returnFromSorted (sortRows d.rows) t,
                by simp [he, hc, localizeRef, htz]⟩
            · by_cases hlk : d.localizeOk
              · exact ⟨returnFromSorted (sortRows d.rows) t,
                  by simp [he, hc, localizeRef, htz, hlk]⟩
              · exact ⟨0, by simp [he, hc, localizeRef, htz, hlk]⟩
        · exact ⟨0, by simp [he, hc]⟩
  obtain ⟨q, hq⟩ := hok
  rw [hq]
  simp [calculate_returns, hq]

/-- On a DataFrame input with a valid reference date, `calculate_returns`
either takes an early sentinel exit or reaches the post-sorting
computation. -/
lemma calculate_returns_cases (d : Frame) (t : Int) :
    calculate_returns (.df d) (.valid t) = 0 ∨
    calculate_returns (.df d) (.valid t) = returnFromSorted (sortRows d.rows) t := by
  by_cases hne : d.rows = []
  · exact Or.inl (by simp [calculate_returns, calculate_returnsE, hne])
  · by_cases hc : d.hasClose = true
    · by_cases hloc : d.tzAware = true ∨ d.localizeOk = true
      · obtain ⟨d2, hd2, hrows⟩ := localizeIndex_ok d hloc
        exact Or.inr (by rw [calculate_returns_valid d t d2 hne hc hd2, hrows])
      · push_neg at hloc
        have htz : d.tzAware = false := by simpa using hloc.1
        have hlk : d.localizeOk = false := by simpa using hloc.2
        exact Or.inl (by
          simp [calculate_returns, calculate_returnsE, localizeRef, localizeIndex, htz, hlk])
    · have hc2 : d.hasClose = false := by simpa using hc
      exact Or.inl (by simp [calculate_returns, calculate_returnsE, hc2])

/-- C3: `calculate_returns` returns the sentinel 0.0 on an empty series,
on a series without a Close column, and — for a valid reference date —
whenever every timestamp of the series precedes the localized reference
date. -/
theorem calculate_returns_sentinel (d : Frame) (rd : RefDate) (t : Int) :
    (d.rows = [] → calculate_returns (.df d) rd = 0)
    ∧ (d.hasClose = false → calculate_returns (.df d) rd = 0)
    ∧ (rd = .valid t → (∀ r ∈ d.rows, r.1 < t) → calculate_returns (.df d) rd = 0) := by
  refine ⟨?_, ?_, ?_⟩
  · intro hne
    simp [calculate_returns, calculate_returnsE, hne]
  · intro hc
    simp [calculate_returns, calculate_returnsE, hc]
  · intro hrd hall
    subst hrd
    rcases calculate_returns_cases d t with h | h
    · exact h
    · rw [h]
      have hfil : (sortRows d.rows).filter (fun r => decide (t ≤ r.1)) = [] := by
        rw [List.filter_eq_nil_iff]
        intro a ha
        have ham : a ∈ d.rows := (sortRows_perm d.rows).mem_iff.mp ha
        simpa using not_le.mpr (hall a ham)
      unfold returnFromSorted
      rw [hfil]

/-- Concrete instance of C3: a single point at timestamp 0 with
reference date 5 (every point precedes it) yields the sentinel. -/
theorem calculate_returns_sentinel_witness :
    calculate_returns (.df ⟨true, true, true, [(0, some 1)]⟩) (.valid 5) = 0 :=
  (calculate_returns_sentinel ⟨true, true, true, [(0, some 1)]⟩ (.valid 5) 5).2.2
    rfl (by decide)

/-- C4: when a start entry at/after the reference date exists but its
close or the last close is NaN, or the start close is zero,
`calculate_returns` returns the sentinel 0.0 rather than dividing (in
particular the result is a plain number, never NaN). -/
theorem calculate_returns_guard (d : Frame) (rd : RefDate) (t : Int) (s e : Row)
    (hrd : rd = .valid t)
    (hmask : ((sortRows d.rows).filter (fun r => decide (t ≤ r.1))).head? = some s)
    (hlast : (sortRows d.rows).getLast? = some e)
    (hbad : s.2 = none ∨ e.2 = none ∨ s.2 = some 0) :
    calculate_returns (.df d) rd = 0 := by
  subst hrd
  rcases calculate_returns_cases d t with h | h
  · exact h
  · rw [h]
    obtain ⟨ts, sc⟩ := s
    obtain ⟨te, ec⟩ := e
    unfold returnFromSorted
    cases hf : (sortRows d.rows).filter (fun r => decide (t ≤ r.1)) with
    | nil => rfl
    | cons s2 tl =>
      rw [hf] at hmask
      simp only [List.head?_cons, Option.some.injEq] at hmask
      subst hmask
      rw [hlast]
      simp only at hbad
      rcases hbad with hb | hb | hb
      · subst hb; rfl
      · subst hb; cases sc <;> rfl
      · subst hb; cases ec <;> simp

/-- Concrete instance of C4: a single row with a NaN close located as
the start entry yields the sentinel, not NaN. -/
theorem calculate_returns_guard_witness :
    calculate_returns (.df ⟨true, true, true, [(0, none)]⟩) (.valid 0) = 0 :=
  calculate_returns_guard ⟨true, true, true, [(0, none)]⟩ (.valid 0) 0
    (0, none) (0, none) rfl (by decide) (by decide) (Or.inl rfl)

/-- C5: whenever no start price can be determined — input not a
DataFrame, empty series, missing Close column, no entry at/after the
reference date, located start close NaN, or located start close zero —
`calculate_percentage_change` returns the explicitly empty series `[]`
(not a series of zeros, and a different shape from the scalar sentinel). -/
theorem calculate_percentage_change_empty (d : Frame) (t : Int) (s : Row) :
    (calculate_percentage_change .other t = [])
    ∧ (d.rows = [] → calculate_percentage_change (.df d) t = [])
    ∧ (d.hasClose = false → calculate_percentage_change (.df d) t = [])
    ∧ ((sortRows d.rows).filter (fun r => decide (t ≤ r.1)) = [] →
        calculate_percentage_change (.df d) t = [])
    ∧ (((sortRows d.rows).filter (fun r => decide (t ≤ r.1))).head? = some s →
        s.2 = none → calculate_percentage_change (.df d) t = [])
    ∧ (((sortRows d.rows).filter (fun r => decide (t ≤ r.1))).head? = some s →
        s.2 = some 0 → calculate_percentage_change (.df d) t = []) := by
  have hcases : calculate_percentage_change (.df d) t = [] ∨
      calculate_percentage_change (.df d) t = pctChangeFromSorted (sortRows d.rows) t := by
    by_cases hne : d.rows = []
    · exact Or.inl (by simp [calculate_percentage_change, hne])
    · by_cases hc : d.hasClose = true
      · by_cases hloc : d.tzAware = true ∨ d.localizeOk = true
        · obtain ⟨d2, hd2, hrows⟩ := localizeIndex_ok d hloc
          exact Or.inr (by rw [calculate_percentage_change_df d t d2 hne hc hd2, hrows])
        · push_neg at hloc
          have htz : d.tzAware = false := by simpa using hloc.1
          have hlk : d.localizeOk = false := by simpa using hloc.2
          exact Or.inl (by simp [calculate_percentage_change, localizeIndex, htz, hlk])
      · have hc2 : d.hasClose = false := by simpa using hc
        exact Or.inl (by simp [calculate_percentage_change, hc2])
  refine ⟨rfl, ?_, ?_, ?_, ?_, ?_⟩
  · intro hne
    simp [calculate_percentage_change, hne]
  · intro hc
    simp [calculate_percentage_change, hc]
  · intro hfil
    rcases hcases with h | h
    · exact h
    · rw [h]; unfold pctChangeFromSorted; rw [hfil]
  · intro hmask hnan
    rcases hcases with h | h
    · exact h
    · rw [h]
      obtain ⟨ts, sc⟩ := s
      unfold pctChangeFromSorted
      cases hf : (sortRows d.rows).filter (fun r => decide (t ≤ r.1)) with
      | nil => rfl
      | cons s2 tl =>
        rw [hf] at hmask
        simp only [List.head?_cons, Option.some.injEq] at hmask
        subst hmask
        simp only at hnan
        subst hnan
        rfl
  · intro hmask hzero
    rcases hcases with h | h
    · exact h
    · rw [h]
      obtain ⟨ts, sc⟩ := s
      unfold pctChangeFromSorted
      cases hf : (sortRows d.rows).filter (fun r => decide (t ≤ r.1)) with
      | nil => rfl
      | cons s2 tl =>
        rw [hf] at hmask
        simp only [List.head?_cons, Option.some.injEq] at hmask
        subst hmask
        simp only at hzero
        subst hzero
        simp

/-- Concrete instance of C5: the empty DataFrame produces the empty
series. -/
theorem calculate_percentage_change_empty_witness :
    calculate_percentage_change (.df ⟨true, true, true, []⟩) 0 = [] :=
  (calculate_percentage_change_empty ⟨true, true, true, []⟩ 0 (0, none)).2.1 rfl

/-- On a DataFrame input, `calculate_percentage_change` either takes an
early empty exit or reaches the post-sorting computation. -/
lemma calculate_percentage_change_cases (d : Frame) (t : Int) :
    calculate_percentage_change (.df d) t = [] ∨
    calculate_percentage_change (.df d) t = pctChangeFromSorted (sortRows d.rows) t := by
  by_cases hne : d.rows = []
  · exact Or.inl (by simp [calculate_percentage_change, hne])
  · by_cases hc : d.hasClose = true
    · by_cases hloc : d.tzAware = true ∨ d.localizeOk = true
      · obtain ⟨d2, hd2, hrows⟩ := localizeIndex_ok d hloc
        exact Or.inr (by rw [calculate_percentage_change_df d t d2 hne hc hd2, hrows])
      · push_neg at hloc
        have htz : d.tzAware = false := by simpa using hloc.1
        have hlk : d.localizeOk = false := by simpa using hloc.2
        exact Or.inl (by simp [calculate_percentage_change, localizeIndex, htz, hlk])
    · have hc2 : d.hasClose = false := by simpa using hc
      exact Or.inl (by simp [calculate_percentage_change, hc2])

/-- C6: when a valid non-NaN nonzero start close `sp` is located at the
first sorted entry at/after the reference date, the whole sorted series
— the entries before the reference date included — is returned
transformed pointwise as `(close / sp - 1) * 100`, keeping the sorted
index and the full length (no truncation to post-start points). -/
theorem calculate_percentage_change_formula (d : Frame) (t : Int) (s : Row) (sp : ℚ)
    (hloc : d.tzAware = true ∨ d.localizeOk = true)
    (hne : d.rows ≠ [])
    (hclose : d.hasClose = true)
    (hmask : ((sortRows d.rows).filter (fun r => decide (t ≤ r.1))).head? = some s)
    (hsp : s.2 = some sp) (hsp0 : sp ≠ 0) :
    calculate_percentage_change (.df d) t
      = (sortRows d.rows).map (fun r => (r.1, r.2.map (fun c => (c / sp - 1) * 100)))
    ∧ (calculate_percentage_change (.df d) t).map Prod.fst
      = (sortRows d.rows).map Prod.fst
    ∧ (calculate_percentage_change (.df d) t).length = d.rows.length := by
  obtain ⟨d2, hd2, hrows⟩ := localizeIndex_ok d hloc
  have h1 : calculate_percentage_change (.df d) t
      = (sortRows d.rows).map (fun r => (r.1, r.2.map (fun c => (c / sp - 1) * 100))) := by
    rw [calculate_percentage_change_df d t d2 hne hclose hd2, hrows]
    obtain ⟨ts, sc⟩ := s
    unfold pctChangeFromSorted
    cases hf : (sortRows d.rows).filter (fun r => decide (t ≤ r.1)) with
    | nil => rw [hf] at hmask; simp at hmask
    | cons s2 tl =>
      rw [hf] at hmask
      simp only [List.head?_cons, Option.some.injEq] at hmask
      subst hmask
      simp only at hsp
      subst hsp
      simp [hsp0]
  refine ⟨h1, ?_, ?_⟩
  · rw [h1, List.map_map]
    simp [Function.comp]
  · rw [h1, List.length_map]
    exact (sortRows_perm d.rows).length_eq

/-- Concrete instance of C6: points (0, 2), (10, 4) with reference
date 0 are transformed whole, to (0, 0 %) and (10, 100 %). -/
theorem calculate_percentage_change_formula_witness :
    calculate_percentage_change (.df ⟨true, true, true, [(0, some 2), (10, some 4)]⟩) 0
      = (sortRows [(0, some 2), (10, some 4)]).map
          (fun r => (r.1, r.2.map (fun c => (c / 2 - 1) * 100)))
    ∧ (calculate_percentage_change
        (.df ⟨true, true, true, [(0, some 2), (10, some 4)]⟩) 0).length = 2 :=
  ⟨(calculate_percentage_change_formula ⟨true, true, true, [(0, some 2), (10, some 4)]⟩
      0 (0, some 2) 2 (Or.inl rfl) (by decide) rfl (by decide) rfl (by decide)).1,
   (calculate_percentage_change_formula ⟨true, true, true, [(0, some 2), (10, some 4)]⟩
      0 (0, some 2) 2 (Or.inl rfl) (by decide) rfl (by decide) rfl (by decide)).2.2⟩

/-- The tail of `pctChangeFromSorted` once the first masked row's close
`sc` is known. -/
def pctFromStart (rows : List Row) (sc : Option ℚ) : List Row :=
  match sc with
  | none => []
  | some sp =>
    if sp = 0 then []
    else rows.map (fun r => (r.1, r.2.map (fun c => (c / sp - 1) * 100)))

/-- Reduction of `pctChangeFromSorted` once the first masked row is
known. -/
lemma pctChangeFromSorted_cons (rows : List Row) (t : Int) (ts : Int)
    (sc : Option ℚ) (tl : List Row)
    (hf : rows.filter (fun r => decide (t ≤ r.1)) = (ts, sc) :: tl) :
    pctChangeFromSorted rows t = pctFromStart rows sc := by
  unfold pctChangeFromSorted pctFromStart
  rw [hf]

/-- C10: whenever `calculate_percentage_change` returns a non-empty
series, the input was a DataFrame and there is a position `j` — the
located start entry, i.e. the first sorted row whose timestamp is
at/after the reference date — at which the output value is exactly 0,
because that entry's own close is used as the start price. -/
theorem calculate_percentage_change_zero_at_start (v : PyValue) (t : Int)
    (h : calculate_percentage_change v t ≠ []) :
    ∃ d, v = .df d ∧
      ∃ j, ∃ hj : j < (sortRows d.rows).length,
        (t ≤ ((sortRows d.rows).get ⟨j, hj⟩).1
          ∧ ∀ k (hk : k < (sortRows d.rows).length), k < j →
              ¬ t ≤ ((sortRows d.rows).get ⟨k, hk⟩).1)
        ∧ ∃ hj2 : j < (calculate_percentage_change v t).length,
            ((calculate_percentage_change v t).get ⟨j, hj2⟩).2 = some 0 := by
  cases v with
  | other => exact absurd rfl h
  | df d =>
    rcases calculate_percentage_change_cases d t with hc | hc
    · exact absurd hc h
    · rw [hc] at h ⊢
      refine ⟨d, rfl, ?_⟩
      cases hf : (sortRows d.rows).filter (fun r => decide (t ≤ r.1)) with
      | nil =>
        have hnil : pctChangeFromSorted (sortRows d.rows) t = [] := by
          unfold pctChangeFromSorted
          rw [hf]
        exact absurd hnil h
      | cons s2 tl =>
        obtain ⟨ts, sc⟩ := s2
        have hred := pctChangeFromSorted_cons (sortRows d.rows) t ts sc tl hf
        rw [hred] at h ⊢
        cases sc with
        | none => exact absurd rfl h
        | some sp =>
          by_cases hsp0 : sp = 0
          · exact absurd (by simp [pctFromStart, hsp0]) h
          · have hmap : pctFromStart (sortRows d.rows) (some sp)
                = (sortRows d.rows).map
                    (fun r => (r.1, r.2.map (fun c => (c / sp - 1) * 100))) := by
              simp [pctFromStart, hsp0]
            rw [hmap] at h ⊢
            obtain ⟨j, hj, hget, hp, hfirst⟩ :=
              filter_head_first (fun r => decide (t ≤ r.1)) (sortRows d.rows) (ts, some sp)
                (by rw [hf]; rfl)
            refine ⟨j, hj, ⟨?_, ?_⟩, ?_⟩
            · rw [hget]
              exact of_decide_eq_true hp
            · intro k hk hkj
              simpa using hfirst k hk hkj
            · have hlen : j < ((sortRows d.rows).map
                  (fun r => (r.1, r.2.map (fun c => (c / sp - 1) * 100)))).length := by
                simpa using hj
              refine ⟨hlen, ?_⟩
              rw [List.get_eq_getElem] at hget
              simp only [List.get_eq_getElem, List.getElem_map]
              rw [hget]
              simp [div_self hsp0]

/-- Concrete instance of C10: points (0, 2), (1, 4) with reference
date 0 give a non-empty output whose value at the located start entry
is 0. -/
theorem calculate_percentage_change_zero_at_start_witness :
    calculate_percentage_change (.df ⟨true, true, true, [(0, some 2), (1, some 4)]⟩) 0 ≠ []
    ∧ ∃ d, PyValue.df ⟨true, true, true, [(0, some 2), (1, some 4)]⟩ = .df d ∧
        ∃ j, ∃ hj : j < (sortRows d.rows).length,
          ((0:Int) ≤ ((sortRows d.rows).get ⟨j, hj⟩).1
            ∧ ∀ k (hk : k < (sortRows d.rows).length), k < j →
                ¬ (0:Int) ≤ ((sortRows d.rows).get ⟨k, hk⟩).1)
          ∧ ∃ hj2 : j < (calculate_percentage_change
                (.df ⟨true, true, true, [(0, some 2), (1, some 4)]⟩) 0).length,
              ((calculate_percentage_change
                (.df ⟨true, true, true, [(0, some 2), (1, some 4)]⟩) 0).get ⟨j, hj2⟩).2
                = some 0 :=
  ⟨by decide,
   calculate_percentage_change_zero_at_start
     (.df ⟨true, true, true, [(0, some 2), (1, some 4)]⟩) 0 (by decide)⟩

/-- On an invalid (unlocalizable) reference date every path of
`calculate_returns` yields the sentinel. -/
lemma calculate_returns_invalid (d : Frame) :
    calculate_returns (.df d) .invalid = 0 := by
  simp [calculate_returns, calculate_returnsE, localizeRef]

/-- Normal form of `calculate_returns` on a DataFrame and a valid
reference date. -/
lemma calculate_returns_norm (hc tz lok : Bool) (rows : List Row) (t : Int) :
    calculate_returns (.df ⟨hc, tz, lok, rows⟩) (.valid t) =
      if rows.isEmpty then 0
      else if hc = false then 0
      else if tz = false ∧ lok = false then 0
      else returnFromSorted (sortRows rows) t := by
  cases tz <;> cases lok <;> cases hc <;>
    by_cases he : rows.isEmpty <;>
      simp [calculate_returns, calculate_returnsE, localizeRef, localizeIndex, he]

/-- Counterexample to C7 as stated: with a duplicated timestamp the
result depends on the row order — the series [(0, 1), (0, 2)] and its
permutation [(0, 2), (0, 1)] give different returns for reference
date 0 (100 % versus −50 %). -/
theorem calculate_returns_perm_cex :
    List.Perm [((0:Int), some (1:ℚ)), (0, some 2)] [((0:Int), some (2:ℚ)), (0, some 1)]
    ∧ calculate_returns (.df ⟨true, true, true, [(0, some 1), (0, some 2)]⟩) (.valid 0)
      ≠ calculate_returns (.df ⟨true, true, true, [(0, some 2), (0, some 1)]⟩) (.valid 0) := by
  constructor
  · decide
  · norm_num [calculate_returns, calculate_returnsE, localizeRef, localizeIndex,
      returnFromSorted, sortRows, List.insertionSort, List.orderedInsert, rowLe]

/-- C7 (amended): `calculate_returns` is invariant under permutation of
the rows provided the timestamps are pairwise distinct; determinism on a
fixed (for example already sorted) series holds since the function is a
pure function of its arguments. With a duplicated timestamp the
invariance can fail (see the counterexample). -/
theorem calculate_returns_perm_invariant (rows1 rows2 : List Row)
    (hc tz lok : Bool) (rd : RefDate)
    (hperm : rows1.Perm rows2) (hnd : (rows1.map Prod.fst).Nodup) :
    calculate_returns (.df ⟨hc, tz, lok, rows1⟩) rd
      = calculate_returns (.df ⟨hc, tz, lok, rows2⟩) rd := by
  have hsort : sortRows rows1 = sortRows rows2 := sortRows_eq_of_perm rows1 rows2 hperm hnd
  have hemp : rows1.isEmpty = rows2.isEmpty := by
    have hlen := hperm.length_eq
    cases rows1 <;> cases rows2
    · rfl
    · simp at hlen
    · simp at hlen
    · rfl
  cases rd with
  | invalid => rw [calculate_returns_invalid, calculate_returns_invalid]
  | valid t => rw [calculate_returns_norm, calculate_returns_norm, hsort, hemp]

/-- Concrete instance of amended C7: distinct timestamps 0, 1 in either
order give the same return. -/
theorem calculate_returns_perm_invariant_witness :
    calculate_returns (.df ⟨true, true, true, [(0, some 1), (1, some 2)]⟩) (.valid 0)
      = calculate_returns (.df ⟨true, true, true, [(1, some 2), (0, some 1)]⟩) (.valid 0) :=
  calculate_returns_perm_invariant [(0, some 1), (1, some 2)] [(1, some 2), (0, some 1)]
    true true true (.valid 0) (by decide) (by decide)

/-- Counterexample to C8 as stated: on a frame with a naive index the
in-place assignment `data.index = data.index.tz_localize(...)` changes
the caller's DataFrame — after the call its index is tz-aware. -/
theorem calculate_returns_post_cex :
    calculate_returns_post (.df ⟨true, false, true, [(0, some 1)]⟩) (.valid 0)
      ≠ .df ⟨true, false, true, [(0, some 1)]⟩ := by
  decide

/-- C8 (amended): the two calculators never change the rows (timestamps,
prices, order), the Close column or the localizability of the caller's
DataFrame, and an already tz-aware input is returned entirely unchanged;
the only possible mutation is that a naive index becomes localized
(tz-aware) in place when the guarded localization is reached and
succeeds. -/
theorem calculate_post_preserves_data (d : Frame) (rd : RefDate) (t : Int) :
    ((calculate_returns_post (.df d) rd = .df d ∨
      calculate_returns_post (.df d) rd = .df { d with tzAware := true })
    ∧ (d.tzAware = true → calculate_returns_post (.df d) rd = .df d))
    ∧ ((calculate_percentage_change_post (.df d) t = .df d ∨
        calculate_percentage_change_post (.df d) t = .df { d with tzAware := true })
    ∧ (d.tzAware = true → calculate_percentage_change_post (.df d) t = .df d)) := by
  have hli : (d.tzAware = true → localizeIndex d = .ok d) ∧
      (localizeIndex d = .error () ∨ localizeIndex d = .ok d ∨
        localizeIndex d = .ok { d with tzAware := true }) := by
    unfold localizeIndex
    by_cases htz : d.tzAware
    · exact ⟨fun _ => by simp [htz], Or.inr (Or.inl (by simp [htz]))⟩
    · refine ⟨fun h => absurd h htz, ?_⟩
      by_cases hlk : d.localizeOk
      · exact Or.inr (Or.inr (by simp [htz, hlk]))
      · exact Or.inl (by simp [htz, hlk])
  constructor
  · constructor
    · by_cases he : d.rows.isEmpty
      · exact Or.inl (by simp [calculate_returns_post, he])
      · by_cases hcl : d.hasClose
        · cases rd with
          | invalid => exact Or.inl (by simp [calculate_returns_post, he, hcl, localizeRef])
          | valid t2 =>
            rcases hli.2 with hmode | hmode | hmode
            · exact Or.inl (by simp [calculate_returns_post, he, hcl, localizeRef, hmode])
            · exact Or.inl (by simp [calculate_returns_post, he, hcl, localizeRef, hmode])
            · exact Or.inr (by simp [calculate_returns_post, he, hcl, localizeRef, hmode])
        · exact Or.inl (by simp [calculate_returns_post, he, hcl])
    · intro htz
      by_cases he : d.rows.isEmpty
      · simp [calculate_returns_post, he]
      · by_cases hcl : d.hasClose
        · cases rd with
          | invalid => simp [calculate_returns_post, he, hcl, localizeRef]
          | valid t2 => simp [calculate_returns_post, he, hcl, localizeRef, hli.1 htz]
        · simp [calculate_returns_post, he, hcl]
  · constructor
    · by_cases he : d.rows.isEmpty
      · exact Or.inl (by simp [calculate_percentage_change_post, he])
      · by_cases hcl : d.hasClose
        · rcases hli.2 with hmode | hmode | hmode
          · exact Or.inl (by simp [calculate_percentage_change_post, he, hcl, hmode])
          · exact Or.inl (by simp [calculate_percentage_change_post, he, hcl, hmode])
          · exact Or.inr (by simp [calculate_percentage_change_post, he, hcl, hmode])
        · exact Or.inl (by simp [calculate_percentage_change_post, he, hcl])
    · intro htz
      by_cases he : d.rows.isEmpty
      · simp [calculate_percentage_change_post, he]
      · by_cases hcl : d.hasClose
        · simp [calculate_percentage_change_post, he, hcl, hli.1 htz]
        · simp [calculate_percentage_change_post, he, hcl]

/-- Concrete instance of amended C8: a tz-aware input frame is returned
unchanged by both calculators. -/
theorem calculate_post_preserves_data_witness :
    calculate_returns_post (.df ⟨true, true, true, [(0, some 1)]⟩) (.valid 0)
      = .df ⟨true, true, true, [(0, some 1)]⟩
    ∧ calculate_percentage_change_post (.df ⟨true, true, true, [(0, some 1)]⟩) 0
      = .df ⟨true, true, true, [(0, some 1)]⟩ :=
  ⟨(calculate_post_preserves_data ⟨true, true, true, [(0, some 1)]⟩ (.valid 0) 0).1.2 rfl,
   (calculate_post_preserves_data ⟨true, true, true, [(0, some 1)]⟩ (.valid 0) 0).2.2 rfl⟩

/-- A fetch outcome that fails the acceptance test: either the attempt
raised, or the returned series is empty or has at most 10 observations. -/
def failedOutcome (o : FetchOutcome) : Prop :=
  match o with
  | .ok d => suffData d = false
  | .exc => True

/-- The inner attempt loop for one ticker agrees with a linear scan over
that ticker's (ticker, attempt) pairs followed by the remaining pairs,
provided the incoming frame is not yet sufficient. -/
lemma attempts_scan (fetch : Nat → Nat → FetchOutcome) (tk : Nat) :
    ∀ (as : List Nat) (restPairs : List (Nat × Nat)) (cur : Frame),
      suffData cur = false →
      scanPairs fetch (as.map (fun a => (tk, a)) ++ restPairs) cur =
        (if suffData (runAttemptsList (fetch tk) as cur)
         then runAttemptsList (fetch tk) as cur
         else scanPairs fetch restPairs (runAttemptsList (fetch tk) as cur)) := by
  intro as
  induction as with
  | nil =>
    intro restPairs cur h
    simp [runAttemptsList, scanPairs, h]
  | cons a rest ih =>
    intro restPairs cur h
    simp only [List.map_cons, List.cons_append]
    cases hfa : fetch tk a with
    | exc =>
      simp only [scanPairs, runAttemptsList, hfa]
      exact ih restPairs cur h
    | ok dd =>
      by_cases hs : suffData dd
      · simp [scanPairs, runAttemptsList, hfa, hs]
      · have hs0 : suffData dd = false := by simpa using hs
        simp only [scanPairs, runAttemptsList, hfa, hs0, Bool.false_eq_true, if_false]
        exact ih restPairs dd hs0

/-- The nested ticker/attempt loops agree with one linear scan over the
execution order, provided the incoming frame is not yet sufficient. -/
lemma runTickers_scan (fetch : Nat → Nat → FetchOutcome) :
    ∀ (tickers : List Nat) (cur : Frame), suffData cur = false →
      runTickersList fetch tickers cur = scanPairs fetch (execOrder tickers) cur := by
  intro tickers
  induction tickers with
  | nil => intro cur h; rfl
  | cons tk rest ih =>
    intro cur h
    have hexec : execOrder (tk :: rest)
        = (List.range maxRetries).map (fun a => (tk, a)) ++ execOrder rest := by
      simp [execOrder]
    rw [hexec, attempts_scan fetch tk (List.range maxRetries) (execOrder rest) cur h]
    simp only [runTickersList]
    by_cases hs : suffData (runAttemptsList (fetch tk) (List.range maxRetries) cur)
    · simp [hs]
    · have hs0 : suffData (runAttemptsList (fetch tk) (List.range maxRetries) cur) = false := by
        simpa using hs
      simp [hs0, ih _ hs0]

/-- The linear scan only looks at the listed (ticker, attempt) pairs. -/
lemma scanPairs_congr (f g : Nat → Nat → FetchOutcome) :
    ∀ (pairs : List (Nat × Nat)) (cur : Frame),
      (∀ p ∈ pairs, f p.1 p.2 = g p.1 p.2) →
      scanPairs f pairs cur = scanPairs g pairs cur := by
  intro pairs
  induction pairs with
  | nil => intro cur _; rfl
  | cons p rest ih =>
    intro cur h
    have hp := h p (by simp)
    have hrest : ∀ q ∈ rest, f q.1 q.2 = g q.1 q.2 := fun q hq => h q (by simp [hq])
    cases hg : g p.1 p.2 with
    | exc =>
      simp only [scanPairs, hp, hg]
      exact ih cur hrest
    | ok dd =>
      by_cases hs : suffData dd
      · simp [scanPairs, hp, hg, hs]
      · have hs0 : suffData dd = false := by simpa using hs
        simp only [scanPairs, hp, hg, hs0, Bool.false_eq_true, if_false]
        exact ih dd hrest

/-- When every listed pair fails the acceptance test, the linear scan
simply keeps the value of the last non-raising fetch. -/
lemma scanPairs_allfail (f : Nat → Nat → FetchOutcome) :
    ∀ (pairs : List (Nat × Nat)) (cur : Frame),
      (∀ p ∈ pairs, failedOutcome (f p.1 p.2)) →
      scanPairs f pairs cur = lastFetched f pairs cur := by
  intro pairs
  induction pairs with
  | nil => intro cur _; rfl
  | cons p rest ih =>
    intro cur h
    have hp := h p (by simp)
    have hrest : ∀ q ∈ rest, failedOutcome (f q.1 q.2) := fun q hq => h q (by simp [hq])
    cases hf : f p.1 p.2 with
    | exc =>
      simp only [scanPairs, lastFetched, List.foldl_cons, hf]
      exact ih cur hrest
    | ok dd =>
      have hsd : suffData dd = false := by rw [hf] at hp; exact hp
      simp only [scanPairs, lastFetched, List.foldl_cons, hf, hsd,
        Bool.false_eq_true, if_false]
      exact ih dd hrest

/-- Every pair of the execution order uses an attempt index below
`max_retries`. -/
lemma execOrder_snd_lt (tickers : List Nat) (p : Nat × Nat)
    (hp : p ∈ execOrder tickers) : p.2 < maxRetries := by
  simp only [execOrder, List.mem_flatMap, List.mem_map, List.mem_range] at hp
  obtain ⟨tk, _, a, ha, hpe⟩ := hp
  rw [← hpe]
  exact ha

/-- Concrete constant fetch oracle for the counterexample: every attempt
returns the same one-row (hence insufficient) series. -/
def cexFetch : Nat → Nat → FetchOutcome := fun _ _ => .ok ⟨true, true, true, [(0, some 1)]⟩

/-- Counterexample to C9 as stated: with every fetch returning a 1-row
series (never more than 10 observations, so every symbol/attempt fails
the acceptance test), the instrument's series after the loops is that
1-row series, not the empty series. -/
theorem fetchInstrument_cex :
    (∀ tk a, failedOutcome (cexFetch tk a))
    ∧ fetchInstrument cexFetch [0] ≠ emptyFrame := by
  constructor
  · intro tk a
    show suffData ⟨true, true, true, [(0, some 1)]⟩ = false
    rfl
  · decide

/-- C9 (amended): the fallback fetch scans the candidate symbols in
order with `max_retries` = 2 attempts per symbol, accepting the first
fetched series that is non-empty with more than 10 observations (a
linear scan over the execution order); the result depends only on the
fetch outcomes of attempts 0 and 1 of each symbol; and when every
symbol/attempt combination fails the acceptance test, the instrument's
series is the series of the last non-raising fetch, or the initial empty
series when every attempt raised. (A non-raising fetch may itself return
an empty series, so an empty result does not imply a raise.) -/
theorem fetchInstrument_spec (fetch g : Nat → Nat → FetchOutcome) (tickers : List Nat) :
    fetchInstrument fetch tickers = scanPairs fetch (execOrder tickers) emptyFrame
    ∧ ((∀ tk a, a < maxRetries → fetch tk a = g tk a) →
        fetchInstrument fetch tickers = fetchInstrument g tickers)
    ∧ ((∀ p ∈ execOrder tickers, failedOutcome (fetch p.1 p.2)) →
        fetchInstrument fetch tickers = lastFetched fetch (execOrder tickers) emptyFrame) := by
  have hempty : suffData emptyFrame = false := rfl
  have h1 : fetchInstrument fetch tickers = scanPairs fetch (execOrder tickers) emptyFrame :=
    runTickers_scan fetch tickers emptyFrame hempty
  refine ⟨h1, ?_, ?_⟩
  · intro hfg
    have h2 : fetchInstrument g tickers = scanPairs g (execOrder tickers) emptyFrame :=
      runTickers_scan g tickers emptyFrame hempty
    rw [h1, h2]
    exact scanPairs_congr fetch g (execOrder tickers) emptyFrame
      (fun p hp => hfg p.1 p.2 (execOrder_snd_lt tickers p hp))
  · intro hfail
    rw [h1]
    exact scanPairs_allfail fetch (execOrder tickers) emptyFrame hfail

/-- Constant raising fetch oracle for the witness. -/
def excFetch : Nat → Nat → FetchOutcome := fun _ _ => .exc

/-- Concrete instance of amended C9: with every attempt raising, the
loop result equals the linear scan, is determined by attempts 0 and 1,
and equals the last-fetched value (the empty series here). -/
theorem fetchInstrument_spec_witness :
    fetchInstrument excFetch [0] = scanPairs excFetch (execOrder [0]) emptyFrame
    ∧ fetchInstrument excFetch [0] = fetchInstrument excFetch [0]
    ∧ fetchInstrument excFetch [0] = lastFetched excFetch (execOrder [0]) emptyFrame :=
  ⟨(fetchInstrument_spec excFetch excFetch [0]).1,
   (fetchInstrument_spec excFetch excFetch [0]).2.1 (fun _ _ _ => rfl),
   (fetchInstrument_spec excFetch excFetch [0]).2.2 (fun _ _ => True.intro)⟩
